import Mathlib

/-
Verification of the JobMug database connection manager
(server/src/lib/mongoose.js connectToDatabase, server/src/api/index.js
tryInitDb, server/src/api/health.js handler).

The JavaScript helper keeps a process-wide cache object
  global[CACHE_KEY] = { conn, promise }
and connectToDatabase(mongoUri, { maxAttempts = 4, baseDelay = 500, ...opts })
  1. throws when mongoUri is falsy;
  2. returns the cached conn when conn.connection.readyState === 1;
  3. otherwise, when no promise is stored, stores a new promise running the
     retry loop (attempt counter, exponential backoff, throws lastErr after
     maxAttempts failures) and in every case awaits the stored promise,
     assigning its value to conn and returning it.
The promise field, once set, is never cleared again by any code path.

JavaScript is single threaded: the code from function entry to the creation
of the promise contains no await, so it runs atomically.  We therefore split
one call into an atomic dispatch phase (connectDispatch) that reads the
cache and possibly stores the unique sequence, and a settle phase (settle)
that models awaiting the stored sequence.  Because the sequence is never
cancelled, its complete trace (number of connect calls, backoff waits, and
final outcome) is determined by the attempt oracle env at creation time, so
the cache stores the trace itself.

Handles (the mongoose singleton) and connect errors are opaque values of
types H and E.  The readyState of a handle at a given instant is an oracle
rs : H -> Nat; the result of the k-th call to mongoose.connect is an oracle
env : Nat -> AttemptResult E H (1-indexed).
-/

namespace JobMug

variable {E H : Type}

/-- Result of one underlying `mongoose.connect` call: it either resolves,
yielding the connected handle, or rejects with an error value. -/
inductive AttemptResult (E H : Type) where
  | success (h : H)
  | failure (e : E)
deriving DecidableEq, Repr

/-- Trace of one run of the retry IIFE in `connectToDatabase`:
how many times `mongoose.connect` was called, the backoff waits inserted
between consecutive attempts (entry `i` is the wait before attempt `i + 2`;
attempt 1 is never preceded by a wait), and the outcome: `Except.ok h` when
some attempt succeeded, `Except.error lastErr` when the loop threw.  The
thrown value is `Option E` because `lastErr` starts as `null` and is still
`null` when `maxAttempts = 0` makes the loop body never run. -/
structure RetryTrace (E H : Type) where
  attemptsMade : Nat
  delays : List Nat
  outcome : Except (Option E) H
deriving Repr

/-- Body of the while loop in `connectToDatabase`, recursing on
`remaining = maxAttempts - attempt` so that the recursion is structural.
The JavaScript is

  while (attempt < maxAttempts) \x7b
    attempt += 1;
    try \x7b await mongoose.connect(...); cache.conn = mongoose; return mongoose; \x7d
    catch (err) \x7b
      lastErr = err;
      if (attempt >= maxAttempts) break;
      const wait = baseDelay * Math.pow(2, attempt - 1);
      await new Promise((r) => setTimeout(r, wait));
    \x7d
  \x7d
  throw lastErr;

with `attempt < maxAttempts` holding iff `remaining > 0`, and the incremented
counter reaching `maxAttempts` iff `remaining = 1`.  The wait after failed
attempt `attempt + 1` is `baseDelay * 2 ^ ((attempt + 1) - 1)`. -/
def retryLoopAux (env : Nat → AttemptResult E H) (baseDelay : Nat) :
    Nat → Nat → Option E → RetryTrace E H
  | 0, attempt, lastErr => { attemptsMade := attempt, delays := [], outcome := .error lastErr }
  | remaining + 1, attempt, _ =>
    match env (attempt + 1) with
    | .success h => { attemptsMade := attempt + 1, delays := [], outcome := .ok h }
    | .failure e =>
      match remaining with
      | 0 => { attemptsMade := attempt + 1, delays := [], outcome := .error (some e) }
      | r + 1 =>
        let wait := baseDelay * 2 ^ attempt
        let rest := retryLoopAux env baseDelay (r + 1) (attempt + 1) (some e)
        { attemptsMade := rest.attemptsMade, delays := wait :: rest.delays,
          outcome := rest.outcome }

/-- The complete retry sequence created by `connectToDatabase`: the loop of
`retryLoopAux` started with `attempt = 0` and `lastErr = null`. -/
def retryLoop (env : Nat → AttemptResult E H) (baseDelay maxAttempts : Nat) :
    RetryTrace E H :=
  retryLoopAux env baseDelay maxAttempts 0 none

/-- The process-wide cache `global[CACHE_KEY] = \x7b conn, promise \x7d`.
`conn` is the cached handle (`null` encoded as `none`); `promise` is the
stored connection promise, modelled by the full trace of the sequence it
runs, or `none` when no promise has been stored yet. -/
structure Cache (E H : Type) where
  conn : Option H
  promise : Option (RetryTrace E H)
deriving Repr

/-- Outcome of the atomic dispatch phase of one `connectToDatabase` call:
the call throws the configuration error, returns the cached live handle,
awaits an already stored promise, or stores a fresh sequence and awaits it. -/
inductive Dispatch (E H : Type) where
  | configError
  | cached (h : H)
  | attach (t : RetryTrace E H)
  | started (t : RetryTrace E H)
deriving Repr

/-- The promise branch of `connectToDatabase`: when no promise is stored,
build the retry sequence and store it; in either case the caller will await
the stored sequence. -/
def promiseDispatch (maxAttempts baseDelay : Nat) (env : Nat → AttemptResult E H)
    (c : Cache E H) : Dispatch E H × Cache E H :=
  match c.promise with
  | some t => (.attach t, c)
  | none =>
    let t := retryLoop env baseDelay maxAttempts
    (.started t, { c with promise := some t })

/-- Atomic dispatch phase of `connectToDatabase mongoUri opts`: the code from
entry up to (and including) the possible creation of the promise, which
contains no suspension point.  Mirrors

  if (!mongoUri) throw new Error(...);
  if (cache.conn && cache.conn.connection && cache.conn.connection.readyState === 1)
    return cache.conn;
  if (!cache.promise) cache.promise = (async () => \x7b ... retry loop ... \x7d)();

A falsy `mongoUri` is the empty string; `rs` reports the readyState of a
handle at this instant. -/
def connectDispatch (rs : H → Nat) (mongoUri : String) (maxAttempts baseDelay : Nat)
    (env : Nat → AttemptResult E H) (c : Cache E H) : Dispatch E H × Cache E H :=
  if mongoUri = "" then (.configError, c)
  else
    match c.conn with
    | some h =>
      if rs h = 1 then (.cached h, c)
      else promiseDispatch maxAttempts baseDelay env c
    | none => promiseDispatch maxAttempts baseDelay env c

/-- Caller-visible outcome of one `connectToDatabase` call: the returned
handle, the thrown configuration error, or the rethrown `lastErr` of the
awaited sequence. -/
inductive AcquireOutcome (E H : Type) where
  | ok (h : H)
  | configError
  | exhausted (e : Option E)
deriving Repr

/-- Settle phase of one call: `cache.conn = await cache.promise; return cache.conn`.
Awaiting a sequence that resolved stores and returns its handle (the code
also assigns `cache.conn = mongoose` inside the IIFE on success, with the
same effect); awaiting a sequence that rejected rethrows its error and
leaves the cache untouched. -/
def settle (d : Dispatch E H) (c : Cache E H) : AcquireOutcome E H × Cache E H :=
  match d with
  | .configError => (.configError, c)
  | .cached h => (.ok h, c)
  | .attach t | .started t =>
    match t.outcome with
    | .ok h => (.ok h, { c with conn := some h })
    | .error e => (.exhausted e, c)

/-- One complete, non-overlapped call to `connectToDatabase`: dispatch then
settle, returning the caller-visible outcome and the updated cache. -/
def connectToDatabase (rs : H → Nat) (mongoUri : String) (maxAttempts baseDelay : Nat)
    (env : Nat → AttemptResult E H) (c : Cache E H) : AcquireOutcome E H × Cache E H :=
  match connectDispatch rs mongoUri maxAttempts baseDelay env c with
  | (d, c1) => settle d c1

/-- Arguments of one `connectToDatabase` call, bundled so that runs over a
list of concurrent or sequential callers can be stated. -/
structure CallArgs (E H : Type) where
  rs : H → Nat
  mongoUri : String
  maxAttempts : Nat
  baseDelay : Nat
  env : Nat → AttemptResult E H

/-- Dispatch phases of a list of overlapping callers, in arrival order: each
caller runs its atomic dispatch before any sequence resolves (the cold-start
race).  Returns the dispatch outcome of every caller and the final cache. -/
def runDispatches (calls : List (CallArgs E H)) (c : Cache E H) :
    List (Dispatch E H) × Cache E H :=
  match calls with
  | [] => ([], c)
  | a :: rest =>
    match connectDispatch a.rs a.mongoUri a.maxAttempts a.baseDelay a.env c with
    | (d, c1) =>
      match runDispatches rest c1 with
      | (ds, c2) => (d :: ds, c2)

/-- Number of dispatches that created a fresh connect sequence. -/
def countStarted : List (Dispatch E H) → Nat
  | [] => 0
  | .started _ :: ds => countStarted ds + 1
  | .configError :: ds => countStarted ds
  | .cached _ :: ds => countStarted ds
  | .attach _ :: ds => countStarted ds

/-- Eventual result a dispatched caller resolves with: the cached handle, or
the outcome of the sequence it awaits; `none` for the configuration throw. -/
def dispatchResult : Dispatch E H → Option (Except (Option E) H)
  | .configError => none
  | .cached h => some (.ok h)
  | .attach t => some t.outcome
  | .started t => some t.outcome

/-- Sequential composition of complete `connectToDatabase` calls, used to
state invariants of every cache reachable from the initial empty cache. -/
def runCalls (calls : List (CallArgs E H)) (c : Cache E H) : Cache E H :=
  match calls with
  | [] => c
  | a :: rest =>
    runCalls rest (connectToDatabase a.rs a.mongoUri a.maxAttempts a.baseDelay a.env c).2

/-- Bounded-wait wrapper `tryInitDb(uri, initTimeoutMs)` of
server/src/api/index.js: it calls
`connectToDatabase(uri, \x7b maxAttempts: 2, baseDelay: 200, ... \x7d)` and races
the returned promise against a timer of `initTimeoutMs` milliseconds.  It
returns `true` when the promise resolves first, and `false` in all other
cases: no uri, promise rejected before the timer (the race rejects and the
catch block returns false), or timer fired first (the sequence continues in
the background, the stored promise is not cancelled).  `resolveMs` is the
instant at which the awaited sequence settles; a cached live handle settles
the promise immediately, before any timer. -/
def tryInitDb (rs : H → Nat) (uri : String) (initTimeoutMs : Nat)
    (env : Nat → AttemptResult E H) (resolveMs : Nat) (c : Cache E H) :
    Bool × Cache E H :=
  if uri = "" then (false, c)
  else
    match connectDispatch rs uri 2 200 env c with
    | (.configError, c1) => (false, c1)
    | (.cached _, c1) => (true, c1)
    | (.attach t, c1) =>
      if resolveMs ≤ initTimeoutMs then
        match t.outcome with
        | .ok h => (true, { c1 with conn := some h })
        | .error _ => (false, c1)
      else (false, c1)
    | (.started t, c1) =>
      if resolveMs ≤ initTimeoutMs then
        match t.outcome with
        | .ok h => (true, { c1 with conn := some h })
        | .error _ => (false, c1)
      else (false, c1)

/-- Status field of the health endpoint response body. -/
inductive HealthStatus where
  | ok
  | degraded
  | error
deriving DecidableEq, Repr

/-- Response of the health endpoint: HTTP status code and status field. -/
structure HealthResponse where
  statusCode : Nat
  status : HealthStatus
deriving DecidableEq, Repr

/-- Health endpoint handler of server/src/api/health.js: rejects non-GET
methods, reports error when no uri is configured, and otherwise calls
`connectToDatabase(MONGODB_URI, \x7b serverSelectionTimeoutMS: 8000,
maxAttempts: 3, baseDelay: 500 \x7d)`, then reads
`mongoose.connection.readyState` from the returned handle: 200 ok when it
is 1, 503 degraded otherwise, and 503 error when the connect call threw. -/
def healthHandler (method : String) (rs : H → Nat) (mongoUri : String)
    (env : Nat → AttemptResult E H) (c : Cache E H) : HealthResponse × Cache E H :=
  if method ≠ "GET" then ({ statusCode := 405, status := .error }, c)
  else if mongoUri = "" then ({ statusCode := 500, status := .error }, c)
  else
    match connectToDatabase rs mongoUri 3 500 env c with
    | (.ok h, c1) =>
      if rs h = 1 then ({ statusCode := 200, status := .ok }, c1)
      else ({ statusCode := 503, status := .degraded }, c1)
    | (.exhausted _, c1) => ({ statusCode := 503, status := .error }, c1)
    | (.configError, c1) => ({ statusCode := 503, status := .error }, c1)

/-
Helper lemmas about the dispatch phase and the retry loop.
-/

/-- A stored promise is simply attached to when the cache holds no handle. -/
lemma connectDispatch_attach_of_connNone (rs : H → Nat) (uri : String) (ma bd : Nat)
    (env : Nat → AttemptResult E H) (t : RetryTrace E H) (hu : uri ≠ "") :
    connectDispatch rs uri ma bd env (⟨none, some t⟩ : Cache E H) =
      (.attach t, ⟨none, some t⟩) := by
  simp [connectDispatch, promiseDispatch, hu]

/-- A stored promise is simply attached to when the cached handle is dead. -/
lemma connectDispatch_attach_of_connDead (rs : H → Nat) (uri : String) (ma bd : Nat)
    (env : Nat → AttemptResult E H) (h : H) (t : RetryTrace E H)
    (hu : uri ≠ "") (hdead : rs h ≠ 1) :
    connectDispatch rs uri ma bd env (⟨some h, some t⟩ : Cache E H) =
      (.attach t, ⟨some h, some t⟩) := by
  simp [connectDispatch, promiseDispatch, hu, hdead]

/-- A live cached handle is returned directly, without touching the promise. -/
lemma connectDispatch_cached (rs : H → Nat) (uri : String) (ma bd : Nat)
    (env : Nat → AttemptResult E H) (h : H) (p : Option (RetryTrace E H))
    (hu : uri ≠ "") (hlive : rs h = 1) :
    connectDispatch rs uri ma bd env (⟨some h, p⟩ : Cache E H) =
      (.cached h, ⟨some h, p⟩) := by
  simp [connectDispatch, hu, hlive]

/-- From the empty cache, a call with a uri starts the retry sequence. -/
lemma connectDispatch_started (rs : H → Nat) (uri : String) (ma bd : Nat)
    (env : Nat → AttemptResult E H) (hu : uri ≠ "") :
    connectDispatch rs uri ma bd env (⟨none, none⟩ : Cache E H) =
      (.started (retryLoop env bd ma), ⟨none, some (retryLoop env bd ma)⟩) := by
  simp [connectDispatch, promiseDispatch, hu]

/-- When every connect attempt fails, the loop performs every remaining
attempt, inserts the doubling backoff waits, and throws the error of the
final attempt. -/
lemma retryLoopAux_allFail (env : Nat → AttemptResult E H) (errF : Nat → E)
    (bd : Nat) (hfail : ∀ k, env k = .failure (errF k)) :
    ∀ remaining attempt lastErr, 1 ≤ remaining →
      retryLoopAux env bd remaining attempt lastErr =
        { attemptsMade := attempt + remaining,
          delays := (List.range' attempt (remaining - 1)).map (fun i => bd * 2 ^ i),
          outcome := .error (some (errF (attempt + remaining))) } := by
  intro remaining
  induction remaining with
  | zero => intro attempt lastErr h; exact absurd h (by omega)
  | succ r ih =>
    intro attempt lastErr _
    cases r with
    | zero =>
      rw [retryLoopAux.eq_def]
      simp [hfail]
    | succ r' =>
      have hr : 1 ≤ r' + 1 := Nat.succ_le_succ (Nat.zero_le r')
      rw [retryLoopAux.eq_def]
      simp only [hfail (attempt + 1)]
      rw [ih (attempt + 1) (some (errF (attempt + 1))) hr]
      have harith : attempt + 1 + (r' + 1) = attempt + (r' + 1 + 1) := by omega
      simp [harith, List.range'_succ]

/-- When the first success is on attempt `k`, the loop stops there with the
connected handle, after inserting the doubling backoff waits before attempts
`attempt + 2 .. k`. -/
lemma retryLoopAux_succAt (env : Nat → AttemptResult E H) (bd k : Nat) (h : H)
    (hsucc : env k = .success h)
    (hf : ∀ j, 1 ≤ j → j < k → ∃ e, env j = .failure e) :
    ∀ remaining attempt lastErr, attempt < k → k ≤ attempt + remaining →
      retryLoopAux env bd remaining attempt lastErr =
        { attemptsMade := k,
          delays := (List.range' attempt (k - 1 - attempt)).map (fun i => bd * 2 ^ i),
          outcome := .ok h } := by
  intro remaining
  induction remaining with
  | zero => intro attempt lastErr h1 h2; exact absurd h2 (by omega)
  | succ r ih =>
    intro attempt lastErr h1 h2
    by_cases hk : attempt + 1 = k
    · subst hk
      have hz : attempt + 1 - 1 - attempt = 0 := by omega
      rw [retryLoopAux.eq_def]
      simp [hsucc, hz]
    · have h1' : attempt + 1 < k := by omega
      obtain ⟨e, he⟩ := hf (attempt + 1) (by omega) h1'
      cases r with
      | zero => exact absurd h2 (by omega)
      | succ r' =>
        rw [retryLoopAux.eq_def]
        simp only [he]
        rw [ih (attempt + 1) (some e) h1' (by omega)]
        have hrange : List.range' attempt (k - 1 - attempt) =
            attempt :: List.range' (attempt + 1) (k - 1 - (attempt + 1)) := by
          have : k - 1 - attempt = (k - 1 - (attempt + 1)) + 1 := by omega
          rw [this, List.range'_succ]
        simp [hrange]

/-- Once a promise is stored, a dispatch never stores another sequence and
never changes the cache, whatever its arguments are. -/
lemma connectDispatch_promiseSome (rs : H → Nat) (uri : String) (ma bd : Nat)
    (env : Nat → AttemptResult E H) (conn : Option H) (t : RetryTrace E H) :
    (connectDispatch rs uri ma bd env (⟨conn, some t⟩ : Cache E H)).2 = ⟨conn, some t⟩ ∧
    ∀ u, (connectDispatch rs uri ma bd env (⟨conn, some t⟩ : Cache E H)).1 ≠ .started u := by
  by_cases hu : uri = ""
  · subst hu
    exact ⟨rfl, by simp [connectDispatch]⟩
  · cases conn with
    | none =>
      rw [connectDispatch_attach_of_connNone rs uri ma bd env t hu]
      exact ⟨rfl, by simp⟩
    | some h =>
      by_cases hl : rs h = 1
      · rw [connectDispatch_cached rs uri ma bd env h (some t) hu hl]
        exact ⟨rfl, by simp⟩
      · rw [connectDispatch_attach_of_connDead rs uri ma bd env h t hu hl]
        exact ⟨rfl, by simp⟩

/-- Once a promise is stored, a whole run of dispatches starts no further
sequence and leaves the cache unchanged. -/
lemma runDispatches_promiseSome (t : RetryTrace E H) :
    ∀ (calls : List (CallArgs E H)) (conn : Option H),
      countStarted (runDispatches calls (⟨conn, some t⟩ : Cache E H)).1 = 0 ∧
      (runDispatches calls (⟨conn, some t⟩ : Cache E H)).2 = ⟨conn, some t⟩ := by
  intro calls
  induction calls with
  | nil => intro conn; exact ⟨rfl, rfl⟩
  | cons a rest ih =>
    intro conn
    obtain ⟨hc, hns⟩ :=
      connectDispatch_promiseSome a.rs a.mongoUri a.maxAttempts a.baseDelay a.env conn t
    simp only [runDispatches]
    obtain ⟨d, c1, hd⟩ :
        ∃ d c1, connectDispatch a.rs a.mongoUri a.maxAttempts a.baseDelay a.env
          (⟨conn, some t⟩ : Cache E H) = (d, c1) := ⟨_, _, rfl⟩
    rw [hd]
    rw [hd] at hc hns
    simp only at hc hns
    subst hc
    obtain ⟨hrest0, hrest2⟩ := ih conn
    obtain ⟨ds, c2, hds⟩ :
        ∃ ds c2, runDispatches rest (⟨conn, some t⟩ : Cache E H) = (ds, c2) := ⟨_, _, rfl⟩
    rw [hds]
    rw [hds] at hrest0 hrest2
    simp only at hrest0 hrest2
    refine ⟨?_, hrest2⟩
    cases d with
    | configError => simpa [countStarted] using hrest0
    | cached h => simpa [countStarted] using hrest0
    | attach u => simpa [countStarted] using hrest0
    | started u => exact absurd rfl (hns u)

/-- When the cache holds a stored promise and no handle, every dispatch with
a nonempty uri attaches to that promise. -/
lemma runDispatches_attach (t : RetryTrace E H) :
    ∀ (calls : List (CallArgs E H)),
      (∀ b ∈ calls, b.mongoUri ≠ "") →
      runDispatches calls (⟨none, some t⟩ : Cache E H) =
        (calls.map (fun _ => Dispatch.attach t), ⟨none, some t⟩) := by
  intro calls
  induction calls with
  | nil => intro _; rfl
  | cons a rest ih =>
    intro hcalls
    have ha : a.mongoUri ≠ "" := hcalls a (by simp)
    simp only [runDispatches,
      connectDispatch_attach_of_connNone a.rs a.mongoUri a.maxAttempts a.baseDelay a.env t ha,
      ih (fun b hb => hcalls b (by simp [hb])), List.map_cons]

/-- Any run of dispatches from the empty cache starts at most one sequence. -/
lemma countStarted_le_one :
    ∀ (calls : List (CallArgs E H)),
      countStarted (runDispatches calls (⟨none, none⟩ : Cache E H)).1 ≤ 1 := by
  intro calls
  induction calls with
  | nil => simp [runDispatches, countStarted]
  | cons a rest ih =>
    by_cases hu : a.mongoUri = ""
    · have hd : connectDispatch a.rs a.mongoUri a.maxAttempts a.baseDelay a.env
          (⟨none, none⟩ : Cache E H) = (.configError, ⟨none, none⟩) := by
        rw [hu]
        simp [connectDispatch]
      obtain ⟨ds, c2, hds⟩ :
          ∃ ds c2, runDispatches rest (⟨none, none⟩ : Cache E H) = (ds, c2) := ⟨_, _, rfl⟩
      simp only [runDispatches, hd, hds]
      rw [hds] at ih
      simpa [countStarted] using ih
    · simp only [runDispatches,
        connectDispatch_started a.rs a.mongoUri a.maxAttempts a.baseDelay a.env hu]
      obtain ⟨h0, _⟩ :=
        runDispatches_promiseSome (retryLoop a.env a.baseDelay a.maxAttempts) rest none
      obtain ⟨ds, c2, hds⟩ :
          ∃ ds c2, runDispatches rest
            (⟨none, some (retryLoop a.env a.baseDelay a.maxAttempts)⟩ : Cache E H) =
              (ds, c2) := ⟨_, _, rfl⟩
      rw [hds]
      rw [hds] at h0
      simp only at h0
      simp [countStarted, h0]

/-- The cache invariant relating the handle to the stored promise: whenever a
handle is cached, the stored promise is the settled sequence whose outcome is
exactly that handle. -/
def connInv (c : Cache E H) : Prop :=
  ∀ h, c.conn = some h → ∃ t, c.promise = some t ∧ t.outcome = .ok h

/-- One complete `connectToDatabase` call preserves the cache invariant. -/
lemma connInv_step (rs : H → Nat) (uri : String) (ma bd : Nat)
    (env : Nat → AttemptResult E H) (c : Cache E H) (hc : connInv c) :
    connInv (connectToDatabase rs uri ma bd env c).2 := by
  obtain ⟨conn, promise⟩ := c
  by_cases hu : uri = ""
  · subst hu
    simpa [connectToDatabase, connectDispatch, settle] using hc
  · cases conn with
    | some hh =>
      by_cases hl : rs hh = 1
      · rw [connectToDatabase,
          connectDispatch_cached rs uri ma bd env hh promise hu hl]
        simpa [settle] using hc
      · cases promise with
        | some t =>
          rw [connectToDatabase,
            connectDispatch_attach_of_connDead rs uri ma bd env hh t hu hl]
          cases hout : t.outcome with
          | ok h2 =>
            simp only [settle, hout]
            intro h hh2
            simp only at hh2
            exact ⟨t, rfl, by rw [hout, Option.some.inj hh2]⟩
          | error e =>
            simp only [settle, hout]
            exact hc
        | none =>
          obtain ⟨t, ht, _⟩ := hc hh rfl
          simp at ht
    | none =>
      cases promise with
      | some t =>
        rw [connectToDatabase,
          connectDispatch_attach_of_connNone rs uri ma bd env t hu]
        cases hout : t.outcome with
        | ok h2 =>
          simp only [settle, hout]
          intro h hh2
          simp only at hh2
          exact ⟨t, rfl, by rw [hout, Option.some.inj hh2]⟩
        | error e =>
          simp only [settle, hout]
          exact hc
      | none =>
        rw [connectToDatabase, connectDispatch_started rs uri ma bd env hu]
        cases hout : (retryLoop env bd ma).outcome with
        | ok h2 =>
          simp only [settle, hout]
          intro h hh2
          simp only at hh2
          exact ⟨retryLoop env bd ma, rfl, by rw [hout, Option.some.inj hh2]⟩
        | error e =>
          simp only [settle, hout]
          intro h hh2
          simp at hh2

/-- The cache invariant holds along any sequence of calls from an
invariant-satisfying cache. -/
lemma connInv_runCalls :
    ∀ (calls : List (CallArgs E H)) (c : Cache E H), connInv c →
      connInv (runCalls calls c) := by
  intro calls
  induction calls with
  | nil => intro c hc; exact hc
  | cons a rest ih =>
    intro c hc
    exact ih _ (connInv_step a.rs a.mongoUri a.maxAttempts a.baseDelay a.env c hc)

/-
Concrete oracles and caches used by counterexamples and witnesses.
-/

/-- Readystate oracle reporting every handle as live. -/
def rsLive : Nat → Nat := fun _ => 1

/-- Readystate oracle reporting every handle as dead. -/
def rsDead : Nat → Nat := fun _ => 0

/-- Connect oracle on which every attempt rejects with error 9. -/
def envFail9 : Nat → AttemptResult Nat Nat := fun _ => .failure 9

/-- Connect oracle on which every attempt resolves with handle 7. -/
def envSucc7 : Nat → AttemptResult Nat Nat := fun _ => .success 7

/-- Connect oracle failing attempts 1 and 2 and succeeding from attempt 3. -/
def envFailTwice : Nat → AttemptResult Nat Nat :=
  fun k => if k < 3 then .failure 9 else .success 7

/-- The cache left behind by a run whose two attempts both failed with
error 9: no handle, stored promise rejected with the last error. -/
def failedCache : Cache Nat Nat := ⟨none, some ⟨2, [500], .error (some 9)⟩⟩

/-- The cache left behind by a run whose first attempt succeeded with
handle 7: cached handle and stored resolved promise. -/
def deadCache : Cache Nat Nat := ⟨some 7, some ⟨1, [], .ok 7⟩⟩

/-
Claim theorems.
-/

/-- C1 counterexample: after a first call whose two attempts both failed,
the promise field is still set, so the very next call does not start a fresh
sequence: its dispatch merely attaches to the stored rejected promise and
the call rethrows the stale stored error, even though the underlying connect
primitive would now succeed on the first attempt. -/
theorem stale_promise_replayed_cex :
    connectToDatabase rsLive "db" 2 500 envFail9 (⟨none, none⟩ : Cache Nat Nat) =
      (.exhausted (some 9), failedCache) ∧
    connectToDatabase rsLive "db" 2 500 envSucc7 failedCache =
      (.exhausted (some 9), failedCache) ∧
    (connectDispatch rsLive "db" 2 500 envSucc7 failedCache).1 =
      .attach ⟨2, [500], .error (some 9)⟩ ∧
    countStarted [(connectDispatch rsLive "db" 2 500 envSucc7 failedCache).1] = 0 :=
  ⟨rfl, rfl, rfl, rfl⟩

/-- C1 amended: after the retry sequence exhausts its attempts, the promise
field remains set to the rejected sequence, so every later call attaches to
that same stored sequence instead of starting a brand-new one, rejects with
the same stale stored error, and leaves the cache unchanged. -/
theorem failed_sequence_not_restarted (rs : H → Nat) (uri : String) (ma bd : Nat)
    (env : Nat → AttemptResult E H) (t : RetryTrace E H) (e : Option E)
    (hu : uri ≠ "") (ht : t.outcome = .error e) :
    connectDispatch rs uri ma bd env (⟨none, some t⟩ : Cache E H) =
      (.attach t, ⟨none, some t⟩) ∧
    connectToDatabase rs uri ma bd env (⟨none, some t⟩ : Cache E H) =
      (.exhausted e, ⟨none, some t⟩) := by
  refine ⟨connectDispatch_attach_of_connNone rs uri ma bd env t hu, ?_⟩
  rw [connectToDatabase, connectDispatch_attach_of_connNone rs uri ma bd env t hu]
  simp [settle, ht]

/-- C1 amended, witness at a concrete input. -/
theorem failed_sequence_not_restarted_witness :
    connectDispatch rsLive "db" 2 500 envSucc7 failedCache =
      (.attach ⟨2, [500], .error (some 9)⟩, failedCache) ∧
    connectToDatabase rsLive "db" 2 500 envSucc7 failedCache =
      (.exhausted (some 9), failedCache) :=
  failed_sequence_not_restarted rsLive "db" 2 500 envSucc7
    ⟨2, [500], .error (some 9)⟩ (some 9) (by decide) rfl

/-- C2 counterexample: a first call caches handle 7 and stores the resolved
promise; when the handle later reports dead (readyState 0), the next call
does not start a self-heal sequence: it attaches to the stored resolved
promise and silently returns the same dead handle, leaving the cache
unchanged. -/
theorem dead_handle_silently_reused_cex :
    connectToDatabase rsLive "db" 4 500 envSucc7 (⟨none, none⟩ : Cache Nat Nat) =
      (.ok 7, deadCache) ∧
    rsDead 7 ≠ 1 ∧
    connectToDatabase rsDead "db" 4 500 envFail9 deadCache = (.ok 7, deadCache) ∧
    countStarted [(connectDispatch rsDead "db" 4 500 envFail9 deadCache).1] = 0 :=
  ⟨rfl, by decide, rfl, rfl⟩

/-- C2 amended: when the cached handle reports not live, the call falls
through to the stored promise, which is never cleared: no new self-heal
sequence is started, and the call returns the handle held by that settled
promise, which is the same dead handle, with the cache unchanged. -/
theorem dead_handle_falls_through_to_promise (rs : H → Nat) (uri : String)
    (ma bd : Nat) (env : Nat → AttemptResult E H) (h : H) (t : RetryTrace E H)
    (hu : uri ≠ "") (hdead : rs h ≠ 1) (ht : t.outcome = .ok h) :
    connectDispatch rs uri ma bd env (⟨some h, some t⟩ : Cache E H) =
      (.attach t, ⟨some h, some t⟩) ∧
    connectToDatabase rs uri ma bd env (⟨some h, some t⟩ : Cache E H) =
      (.ok h, ⟨some h, some t⟩) := by
  refine ⟨connectDispatch_attach_of_connDead rs uri ma bd env h t hu hdead, ?_⟩
  rw [connectToDatabase, connectDispatch_attach_of_connDead rs uri ma bd env h t hu hdead]
  simp [settle, ht]

/-- C2 amended, witness at a concrete input. -/
theorem dead_handle_falls_through_to_promise_witness :
    connectDispatch rsDead "db" 4 500 envFail9 deadCache =
      (.attach ⟨1, [], .ok 7⟩, deadCache) ∧
    connectToDatabase rsDead "db" 4 500 envFail9 deadCache = (.ok 7, deadCache) :=
  dead_handle_falls_through_to_promise rsDead "db" 4 500 envFail9 7
    ⟨1, [], .ok 7⟩ (by decide) (by decide) rfl

/-- Attaching dispatches create no sequence. -/
lemma countStarted_map_attach (t : RetryTrace E H) :
    ∀ (l : List (CallArgs E H)),
      countStarted (l.map (fun _ => Dispatch.attach t)) = 0 := by
  intro l
  induction l with
  | nil => rfl
  | cons x xs ihx =>
    simp only [List.map_cons, countStarted]
    exact ihx

/-- C3: coalescing.  When N callers overlap while nothing is cached, the
first dispatch stores exactly one retry sequence and every further dispatch
attaches to it: exactly one sequence is created, the final cache stores that
one sequence, every caller resolves with the outcome of that same sequence,
and any run of dispatches whatsoever from the empty cache creates at most
one sequence process-wide. -/
theorem coalescing_single_sequence (a : CallArgs E H) (rest : List (CallArgs E H))
    (hu : a.mongoUri ≠ "") (hrest : ∀ b ∈ rest, b.mongoUri ≠ "") :
    countStarted (runDispatches (a :: rest) (⟨none, none⟩ : Cache E H)).1 = 1 ∧
    (runDispatches (a :: rest) (⟨none, none⟩ : Cache E H)).2 =
      ⟨none, some (retryLoop a.env a.baseDelay a.maxAttempts)⟩ ∧
    (∀ d ∈ (runDispatches (a :: rest) (⟨none, none⟩ : Cache E H)).1,
      dispatchResult d = some (retryLoop a.env a.baseDelay a.maxAttempts).outcome) ∧
    (∀ calls : List (CallArgs E H),
      countStarted (runDispatches calls (⟨none, none⟩ : Cache E H)).1 ≤ 1) := by
  have hrun : runDispatches (a :: rest) (⟨none, none⟩ : Cache E H) =
      (.started (retryLoop a.env a.baseDelay a.maxAttempts) ::
        rest.map (fun _ => Dispatch.attach (retryLoop a.env a.baseDelay a.maxAttempts)),
        ⟨none, some (retryLoop a.env a.baseDelay a.maxAttempts)⟩) := by
    simp only [runDispatches,
      connectDispatch_started a.rs a.mongoUri a.maxAttempts a.baseDelay a.env hu,
      runDispatches_attach (retryLoop a.env a.baseDelay a.maxAttempts) rest hrest]
  refine ⟨?_, ?_, ?_, countStarted_le_one⟩
  · rw [hrun]
    simp only [countStarted, countStarted_map_attach, Nat.zero_add]
  · rw [hrun]
  · rw [hrun]
    intro d hd
    rcases List.mem_cons.mp hd with hd1 | hd2
    · subst hd1; rfl
    · obtain ⟨b, _, hb⟩ := List.mem_map.mp hd2
      rw [← hb]
      rfl

/-- C3 witness at a concrete input: three overlapping callers, the second
and third with different uris and options. -/
theorem coalescing_single_sequence_witness :
    countStarted (runDispatches
      [⟨rsLive, "db", 2, 500, envFail9⟩, ⟨rsLive, "db2", 9, 7, envSucc7⟩,
        ⟨rsDead, "db3", 1, 1, envSucc7⟩] (⟨none, none⟩ : Cache Nat Nat)).1 = 1 ∧
    (runDispatches
      [⟨rsLive, "db", 2, 500, envFail9⟩, ⟨rsLive, "db2", 9, 7, envSucc7⟩,
        ⟨rsDead, "db3", 1, 1, envSucc7⟩] (⟨none, none⟩ : Cache Nat Nat)).2 =
      ⟨none, some (retryLoop envFail9 500 2)⟩ := by
  have h := coalescing_single_sequence (⟨rsLive, "db", 2, 500, envFail9⟩ : CallArgs Nat Nat)
    [⟨rsLive, "db2", 9, 7, envSucc7⟩, ⟨rsDead, "db3", 1, 1, envSucc7⟩]
    (by decide)
    (by
      intro b hb
      rcases List.mem_cons.mp hb with h1 | h2
      · subst h1; decide
      · rcases List.mem_cons.mp h2 with h3 | h4
        · subst h3; decide
        · simp at h4)
  exact ⟨h.1, h.2.1⟩

/-- C4 counterexample: after a successful first call, the handle field and
the promise field of the singleton cache are both set at the same time: the
promise field is never cleared. -/
theorem conn_and_promise_both_set_cex :
    (connectToDatabase rsLive "db" 4 500 envSucc7 (⟨none, none⟩ : Cache Nat Nat)).2.conn =
      some 7 ∧
    (connectToDatabase rsLive "db" 4 500 envSucc7
      (⟨none, none⟩ : Cache Nat Nat)).2.promise.isSome = true :=
  ⟨rfl, rfl⟩

/-- C4 amended: the handle and promise fields are not mutually exclusive
(after a success both are set, since the promise is never cleared); the
invariant every operation does preserve is that whenever a handle is cached,
the stored promise is the settled sequence whose outcome is exactly that
handle, so a handle is present only when a successful sequence is stored. -/
theorem conn_implies_successful_promise (calls : List (CallArgs E H)) :
    connInv (runCalls calls (⟨none, none⟩ : Cache E H)) :=
  connInv_runCalls calls ⟨none, none⟩ (fun h hh => by simp at hh)

/-- C5: when every connect attempt fails, the loop performs exactly
`maxAttempts` attempts and the call rejects with the error of the final
attempt, for every `maxAttempts ≥ 1` and every assignment of attempt
errors. -/
theorem all_attempts_fail_exhausts (rs : H → Nat) (uri : String)
    (env : Nat → AttemptResult E H) (errF : Nat → E) (bd ma : Nat)
    (hma : 1 ≤ ma) (hu : uri ≠ "")
    (hfail : ∀ k, env k = .failure (errF k)) :
    (retryLoop env bd ma).attemptsMade = ma ∧
    (retryLoop env bd ma).outcome = .error (some (errF ma)) ∧
    (connectToDatabase rs uri ma bd env (⟨none, none⟩ : Cache E H)).1 =
      .exhausted (some (errF ma)) := by
  have h := retryLoopAux_allFail env errF bd hfail ma 0 none hma
  rw [retryLoop] at *
  refine ⟨by rw [h]; simp, by rw [h]; simp, ?_⟩
  rw [connectToDatabase, connectDispatch_started rs uri ma bd env hu]
  rw [retryLoop]
  simp [settle, h]

/-- C5 witness at a concrete input. -/
theorem all_attempts_fail_exhausts_witness :
    (retryLoop envFail9 500 3).attemptsMade = 3 ∧
    (retryLoop envFail9 500 3).outcome = .error (some 9) ∧
    (connectToDatabase rsLive "db" 3 500 envFail9 (⟨none, none⟩ : Cache Nat Nat)).1 =
      .exhausted (some 9) :=
  all_attempts_fail_exhausts rsLive "db" envFail9 (fun _ => 9) 500 3
    (by decide) (by decide) (fun _ => rfl)

/-- C6: when the underlying connect primitive first succeeds on attempt
`k ≤ maxAttempts`, the sequence makes exactly `k` attempts, the wait
inserted before attempt `j` (for `2 ≤ j ≤ k`) is `baseDelay * 2 ^ (j - 2)`
with no wait before attempt 1 (the wait list has exactly `k - 1` entries,
one before each of attempts `2 .. k`), and every coalesced caller resolves
with that same single handle. -/
theorem backoff_schedule_and_shared_handle (rs : H → Nat) (uri : String)
    (env : Nat → AttemptResult E H) (bd ma k : Nat) (h : H)
    (rest : List (CallArgs E H))
    (hk1 : 1 ≤ k) (hkm : k ≤ ma) (hsucc : env k = .success h)
    (hf : ∀ j, 1 ≤ j → j < k → ∃ e, env j = .failure e)
    (hu : uri ≠ "") (hrest : ∀ b ∈ rest, b.mongoUri ≠ "") :
    retryLoop env bd ma =
      { attemptsMade := k,
        delays := (List.range (k - 1)).map (fun i => bd * 2 ^ i),
        outcome := .ok h } ∧
    (∀ j, 2 ≤ j → j ≤ k →
      (retryLoop env bd ma).delays.getD (j - 2) 0 = bd * 2 ^ (j - 2)) ∧
    (retryLoop env bd ma).delays.length = k - 1 ∧
    (∀ d ∈ (runDispatches (⟨rs, uri, ma, bd, env⟩ :: rest)
        (⟨none, none⟩ : Cache E H)).1,
      dispatchResult d = some (.ok h)) := by
  have hmain : retryLoop env bd ma =
      { attemptsMade := k,
        delays := (List.range (k - 1)).map (fun i => bd * 2 ^ i),
        outcome := .ok h } := by
    rw [retryLoop, retryLoopAux_succAt env bd k h hsucc hf ma 0 none (by omega) (by omega)]
    simp [List.range_eq_range']
  refine ⟨hmain, ?_, ?_, ?_⟩
  · intro j hj2 hjk
    rw [hmain]
    have hlt : j - 2 < k - 1 := by omega
    simp [List.getD_eq_getElem?_getD, List.getElem?_map, List.getElem?_range, hlt]
  · rw [hmain]
    simp
  · have hrun : runDispatches ((⟨rs, uri, ma, bd, env⟩ : CallArgs E H) :: rest)
        (⟨none, none⟩ : Cache E H) =
        (.started (retryLoop env bd ma) ::
          rest.map (fun _ => Dispatch.attach (retryLoop env bd ma)),
          ⟨none, some (retryLoop env bd ma)⟩) := by
      simp only [runDispatches, connectDispatch_started rs uri ma bd env hu,
        runDispatches_attach (retryLoop env bd ma) rest hrest]
    rw [hrun]
    intro d hd
    rcases List.mem_cons.mp hd with hd1 | hd2
    · subst hd1
      simp [dispatchResult, hmain]
    · obtain ⟨b, _, hb⟩ := List.mem_map.mp hd2
      rw [← hb]
      simp [dispatchResult, hmain]

/-- C6 witness at a concrete input: failures on attempts 1 and 2, success on
attempt 3, base delay 100, one coalesced second caller. -/
theorem backoff_schedule_and_shared_handle_witness :
    retryLoop envFailTwice 100 4 =
      { attemptsMade := 3,
        delays := (List.range 2).map (fun i => 100 * 2 ^ i),
        outcome := .ok 7 } ∧
    (∀ d ∈ (runDispatches
        [⟨rsLive, "db", 4, 100, envFailTwice⟩, ⟨rsLive, "db2", 9, 7, envFail9⟩]
        (⟨none, none⟩ : Cache Nat Nat)).1,
      dispatchResult d = some (.ok 7)) := by
  have h := backoff_schedule_and_shared_handle rsLive "db" envFailTwice 100 4 3 7
    [⟨rsLive, "db2", 9, 7, envFail9⟩]
    (by decide) (by decide) (by decide)
    (fun j _ hj => ⟨9, by simp [envFailTwice, hj]⟩)
    (by decide)
    (by
      intro b hb
      rcases List.mem_cons.mp hb with h1 | h2
      · subst h1; decide
      · simp at h2)
  exact ⟨h.1, h.2.2.2⟩

/-- C7: a call with no uri supplied throws the configuration error in the
dispatch phase itself, before any suspension point, with the cache unchanged
and no connect sequence created, whatever the options and the cache are. -/
theorem missing_uri_config_error (rs : H → Nat) (ma bd : Nat)
    (env : Nat → AttemptResult E H) (c : Cache E H) :
    connectToDatabase rs "" ma bd env c = (.configError, c) ∧
    connectDispatch rs "" ma bd env c = (.configError, c) ∧
    countStarted [(connectDispatch rs "" ma bd env c).1] = 0 := by
  refine ⟨?_, ?_, ?_⟩ <;> simp [connectToDatabase, connectDispatch, settle, countStarted]

/-- C10: once the cache stores a promise or a live handle, two calls that
differ in uri, maxAttempts, baseDelay and even in the behavior of the
underlying connect primitive return identical results and identical caches,
provided both supply some nonempty uri: only the first caller ever
configured the sequence. -/
theorem later_call_args_ignored (rs : H → Nat) (uri1 uri2 : String)
    (ma1 bd1 ma2 bd2 : Nat) (env1 env2 : Nat → AttemptResult E H) (c : Cache E H)
    (hcache : c.promise ≠ none ∨ ∃ h, c.conn = some h ∧ rs h = 1)
    (h1 : uri1 ≠ "") (h2 : uri2 ≠ "") :
    connectToDatabase rs uri1 ma1 bd1 env1 c = connectToDatabase rs uri2 ma2 bd2 env2 c := by
  obtain ⟨conn, promise⟩ := c
  rcases hcache with hp | ⟨h, hc, hl⟩
  · obtain ⟨t, ht⟩ : ∃ t, promise = some t := by
      cases promise with
      | none => simp at hp
      | some t => exact ⟨t, rfl⟩
    subst ht
    cases conn with
    | none =>
      rw [connectToDatabase, connectToDatabase,
        connectDispatch_attach_of_connNone rs uri1 ma1 bd1 env1 t h1,
        connectDispatch_attach_of_connNone rs uri2 ma2 bd2 env2 t h2]
    | some hh =>
      by_cases hlive : rs hh = 1
      · rw [connectToDatabase, connectToDatabase,
          connectDispatch_cached rs uri1 ma1 bd1 env1 hh (some t) h1 hlive,
          connectDispatch_cached rs uri2 ma2 bd2 env2 hh (some t) h2 hlive]
      · rw [connectToDatabase, connectToDatabase,
          connectDispatch_attach_of_connDead rs uri1 ma1 bd1 env1 hh t h1 hlive,
          connectDispatch_attach_of_connDead rs uri2 ma2 bd2 env2 hh t h2 hlive]
  · have hc2 : conn = some h := hc
    subst hc2
    rw [connectToDatabase, connectToDatabase,
      connectDispatch_cached rs uri1 ma1 bd1 env1 h promise h1 hl,
      connectDispatch_cached rs uri2 ma2 bd2 env2 h promise h2 hl]

/-- C8 counterexample: the value `tryInitDb` returns to its caller when the
bounded wait elapses first (resolution at 1000ms, deadline 50ms) is `false`,
which is exactly the value it returns when the sequence fails quickly
(resolution at 10ms): the pending result is distinct from success but not
from failure. -/
theorem bounded_wait_pending_equals_failure_cex :
    (tryInitDb rsDead "db" 50 envFail9 1000 (⟨none, none⟩ : Cache Nat Nat)).1 = false ∧
    (tryInitDb rsDead "db" 50 envFail9 10 (⟨none, none⟩ : Cache Nat Nat)).1 = false ∧
    (tryInitDb rsDead "db" 50 envFail9 1000 (⟨none, none⟩ : Cache Nat Nat)).1 =
      (tryInitDb rsDead "db" 50 envFail9 10 (⟨none, none⟩ : Cache Nat Nat)).1 :=
  ⟨rfl, rfl, rfl⟩

/-- C8 amended: when the bounded wait elapses before the sequence resolves,
`tryInitDb` returns control to its caller with `false`, a value distinct
from success (`true`) but identical to the failure result, while the
sequence stays stored uncancelled and, with every attempt failing, still
performs its full `maxAttempts = 2` attempts whatever the deadline was. -/
theorem bounded_wait_background_attempts (rs : H → Nat) (uri : String)
    (initTimeoutMs resolveMs : Nat) (env : Nat → AttemptResult E H) (errF : Nat → E)
    (hu : uri ≠ "") (htime : initTimeoutMs < resolveMs)
    (hfail : ∀ k, env k = .failure (errF k)) :
    tryInitDb rs uri initTimeoutMs env resolveMs (⟨none, none⟩ : Cache E H) =
      (false, ⟨none, some (retryLoop env 200 2)⟩) ∧
    (retryLoop env 200 2).attemptsMade = 2 ∧
    (retryLoop env 200 2).outcome = .error (some (errF 2)) := by
  have hres : ¬ resolveMs ≤ initTimeoutMs := by omega
  have h2 := retryLoopAux_allFail env errF 200 hfail 2 0 none (by omega)
  refine ⟨?_, by rw [retryLoop, h2], by rw [retryLoop, h2]⟩
  unfold tryInitDb
  rw [if_neg hu, connectDispatch_started rs uri 2 200 env hu]
  simp [hres]

/-- C8 amended, witness at a concrete input. -/
theorem bounded_wait_background_attempts_witness :
    tryInitDb rsDead "db" 50 envFail9 1000 (⟨none, none⟩ : Cache Nat Nat) =
      (false, ⟨none, some (retryLoop envFail9 200 2)⟩) ∧
    (retryLoop envFail9 200 2).attemptsMade = 2 ∧
    (retryLoop envFail9 200 2).outcome = .error (some 9) :=
  bounded_wait_background_attempts rsDead "db" 50 1000 envFail9 (fun _ => 9)
    (by decide) (by decide) (fun _ => rfl)

/-- C9 counterexample: with nothing cached, a GET on the health endpoint
itself starts a connect sequence: the dispatch of its inner
`connectToDatabase` call is a `started` dispatch, the cache transitions from
having no stored promise to storing the three-attempt sequence, and the
response reports error after the sequence exhausts its attempts. -/
theorem health_check_starts_connect_cex :
    healthHandler "GET" rsDead "db" envFail9 (⟨none, none⟩ : Cache Nat Nat) =
      (⟨503, .error⟩, ⟨none, some ⟨3, [500, 1000], .error (some 9)⟩⟩) ∧
    (⟨none, none⟩ : Cache Nat Nat).promise.isSome = false ∧
    (healthHandler "GET" rsDead "db" envFail9
      (⟨none, none⟩ : Cache Nat Nat)).2.promise.isSome = true ∧
    (connectDispatch rsDead "db" 3 500 envFail9 (⟨none, none⟩ : Cache Nat Nat)).1 =
      .started ⟨3, [500, 1000], .error (some 9)⟩ :=
  ⟨rfl, rfl, rfl, rfl⟩

/-- C9 amended: the health report is produced by calling
`connectToDatabase`: when a live handle is cached the call is read-only (it
reports ok and leaves the cache unchanged), but when nothing is cached the
health check itself triggers a connect sequence, which remains stored in the
cache whatever its outcome. -/
theorem health_check_connect_behavior (rs : H → Nat) (uri : String)
    (env : Nat → AttemptResult E H) (h : H) (p : Option (RetryTrace E H))
    (hu : uri ≠ "") (hlive : rs h = 1) :
    healthHandler "GET" rs uri env (⟨some h, p⟩ : Cache E H) =
      ({ statusCode := 200, status := .ok }, ⟨some h, p⟩) ∧
    (healthHandler "GET" rs uri env (⟨none, none⟩ : Cache E H)).2.promise =
      some (retryLoop env 500 3) := by
  constructor
  · have hcall : connectToDatabase rs uri 3 500 env (⟨some h, p⟩ : Cache E H) =
        (.ok h, ⟨some h, p⟩) := by
      rw [connectToDatabase, connectDispatch_cached rs uri 3 500 env h p hu hlive]
      rfl
    unfold healthHandler
    rw [if_neg (by decide), if_neg hu, hcall]
    simp [hlive]
  · have hcall : connectToDatabase rs uri 3 500 env (⟨none, none⟩ : Cache E H) =
        settle (.started (retryLoop env 500 3)) ⟨none, some (retryLoop env 500 3)⟩ := by
      rw [connectToDatabase, connectDispatch_started rs uri 3 500 env hu]
    unfold healthHandler
    rw [if_neg (by decide), if_neg hu, hcall]
    cases hout : (retryLoop env 500 3).outcome with
    | ok h2 =>
      simp only [settle, hout]
      by_cases hr2 : rs h2 = 1 <;> simp [hr2]
    | error e =>
      simp only [settle, hout]

/-- C9 amended, witness at a concrete input. -/
theorem health_check_connect_behavior_witness :
    healthHandler "GET" rsLive "db" envFail9 (⟨some 7, none⟩ : Cache Nat Nat) =
      ({ statusCode := 200, status := .ok }, ⟨some 7, none⟩) ∧
    (healthHandler "GET" rsLive "db" envFail9
      (⟨none, none⟩ : Cache Nat Nat)).2.promise = some (retryLoop envFail9 500 3) :=
  health_check_connect_behavior rsLive "db" envFail9 7 none (by decide) rfl

/-- C10 witness at a concrete input: a second call with a different uri,
different options and an underlying connect that would now succeed still
returns exactly what the stored sequence produced. -/
theorem later_call_args_ignored_witness :
    connectToDatabase rsLive "db" 2 500 envFail9 failedCache =
      connectToDatabase rsLive "db2" 9 7 envSucc7 failedCache :=
  later_call_args_ignored rsLive "db" "db2" 2 500 9 7 envFail9 envSucc7 failedCache
    (Or.inl (by simp [failedCache])) (by decide) (by decide)

end JobMug
